import Mathlib

/-!
Verification development for the dvuploader package (gdcc/python-dvuploader).

Shallow embedding of the parts of the code relevant to the checked claims:
  * `src/dvuploader/file.py`          — the `File` pydantic model and `extract_file_name`
  * `src/dvuploader/packaging.py`     — `distribute_files` / `_append_and_reset`
  * `src/dvuploader/directupload.py`  — `_chunked_upload`, `_complete_upload`,
                                        `_prepare_registration`, `asyncio.gather` use
  * `src/dvuploader/nativeupload.py`  — `_single_native_upload` retry classification,
                                        `_update_metadata` lookup order, `_tab_extension`
  * `src/dvuploader/dvuploader.py`    — `DVUploader.upload` HTTP sequencing,
                                        `DVUploader._has_direct_upload`

Machine integers do not overflow in the Python source, so sizes are `Nat`.
Fallible code is embedded with `Except` / `Option`.
-/

namespace Dvuploader

/-! ## Data model (src/dvuploader/file.py, src/dvuploader/checksum.py) -/

/-- `ChecksumTypes` enum from checksum.py: each member carries the wire name of the
algorithm (the hashlib constructor itself is not modelled; no claim depends on digests). -/
inductive ChecksumType
  | md5
  | sha1
  | sha256
  | sha512
deriving DecidableEq

/-- Wire name of a checksum algorithm, first slot of the `ChecksumTypes` enum values. -/
def ChecksumType.algoName : ChecksumType → String
  | .md5 => "MD5"
  | .sha1 => "SHA-1"
  | .sha256 => "SHA-256"
  | .sha512 => "SHA-512"

/-- `Checksum` pydantic model of checksum.py: `type` (alias `@type`) and optional
`value` (alias `@value`); the private running hash state is not modelled. -/
structure Checksum where
  type : String
  value : Option String := none
deriving DecidableEq

/-- `Checksum.from_algo`: a fresh checksum record with `value=None`. -/
def Checksum.from_algo (hash_algo : String) : Checksum :=
  { type := hash_algo, value := none }

/-- `file_id` is `Optional[Union[str, int]]` in file.py. -/
inductive FileId
  | str (s : String)
  | int (n : Int)
deriving DecidableEq

/-- An in-memory handler passed to `File.handler`: either a `BytesIO` (byte buffer)
or a `StringIO` (text buffer), together with its current stream position.
`bytesBuf` stands for `BytesIO`, `stringBuf` for `StringIO`. -/
inductive Handler
  | bytesBuf (content : List Nat) (pos : Nat)
  | stringBuf (content : String) (pos : Nat)
deriving DecidableEq

/-- The data returned by one full `handler.read()`: bytes or text, matching the
handler flavour. -/
inductive HandlerData
  | bytes (bs : List Nat)
  | text (s : String)
deriving DecidableEq

/-- `handler.read()` with no argument: everything from the current position to the
end; afterwards the position is at the end of the buffer. -/
def Handler.read : Handler → HandlerData × Handler
  | .bytesBuf c p => (.bytes (c.drop p), .bytesBuf c c.length)
  | .stringBuf c p => (.text (String.mk (c.toList.drop p)), .stringBuf c c.toList.length)

/-- `handler.seek(0)`. -/
def Handler.seek0 : Handler → Handler
  | .bytesBuf c _ => .bytesBuf c 0
  | .stringBuf c _ => .stringBuf c 0

/-- Current stream position of a handler. -/
def Handler.pos : Handler → Nat
  | .bytesBuf _ p => p
  | .stringBuf _ p => p

/-- Python `len(...)` of the data returned by `read()`: number of bytes for a
`BytesIO`, number of characters (code points) for a `StringIO`. -/
def HandlerData.len : HandlerData → Nat
  | .bytes bs => bs.length
  | .text s => s.length

/-- Byte length of the whole buffer a handler holds: for a `StringIO` this is the
UTF-8 encoded size, which differs from Python `len` on non-ASCII text. -/
def Handler.contentsByteLength : Handler → Nat
  | .bytesBuf c _ => c.length
  | .stringBuf c _ => c.utf8ByteSize

/-- The `File` pydantic model of file.py.  Public fields keep their source names;
wire aliases (`directoryLabel`, `fileName`, `fileToReplaceId`, `tabIngest`) are
applied by `model_dump_registration` below.  Private attributes `_size`,
`_unchanged_data`, `_enforce_metadata_update`, `_is_inside_zip` are ordinary
fields here (pydantic private attrs are never serialized). -/
structure File where
  filepath : String
  handler : Option Handler := none
  description : String := ""
  directory_label : String := ""
  mimeType : String := "application/octet-stream"
  categories : Option (List String) := some ["DATA"]
  restrict : Bool := false
  checksum_type : ChecksumType := .md5
  storageIdentifier : Option String := none
  file_name : Option String := none
  checksum : Option Checksum := none
  to_replace : Bool := false
  file_id : Option FileId := none
  tab_ingest : Bool := true
  _size : Nat := 0
  _unchanged_data : Bool := false
  _enforce_metadata_update : Bool := false
  _is_inside_zip : Bool := false
deriving DecidableEq

/-! ## Packager (src/dvuploader/packaging.py) -/

/-- Loop state of `distribute_files`: the `packages` list built so far, the
`current_package` accumulator, the running `package_index` and `current_size`. -/
structure DistState where
  packages : List (Nat × List File)
  current_package : List File
  package_index : Nat
  current_size : Nat

/-- `_append_and_reset(package, packages)`: appends the package and returns the
reset accumulator `([], 0, package[0] + 1)` together with the grown list. -/
def _append_and_reset (package : Nat × List File) (packages : List (Nat × List File)) :
    List (Nat × List File) × (List File × Nat × Nat) :=
  (packages ++ [package], ([], 0, package.1 + 1))

/-- One iteration of the `for file in dv_files` loop of `distribute_files`.
`maxPkgSize` stands for the module constant `MAXIMUM_PACKAGE_SIZE`
(environment-tunable, default `2 * 1024 ** 3`). -/
def distributeStep (maxPkgSize : Nat) (st : DistState) (file : File) : DistState :=
  if file._size > maxPkgSize then
    let st1 :=
      if st.current_package.isEmpty then st
      else
        let (pkgs, cur, sz, idx) :=
          _append_and_reset (st.package_index, st.current_package) st.packages
        ⟨pkgs, cur, idx, sz⟩
    let (pkgs, cur, sz, idx) :=
      _append_and_reset (st1.package_index, [file]) st1.packages
    ⟨pkgs, cur, idx, sz⟩
  else
    let st1 :=
      if st.current_size + file._size > maxPkgSize then
        if st.current_package.isEmpty then st
        else
          let (pkgs, cur, sz, idx) :=
            _append_and_reset (st.package_index, st.current_package) st.packages
          ⟨pkgs, cur, idx, sz⟩
      else st
    { st1 with
        current_package := st1.current_package ++ [file],
        current_size := st1.current_size + file._size }

/-- `distribute_files(dv_files)` of packaging.py: fold the loop body over the
input, then flush the non-empty remainder (the `else` clause of the `for` loop). -/
def distribute_files (maxPkgSize : Nat) (dv_files : List File) : List (Nat × List File) :=
  let st := dv_files.foldl (distributeStep maxPkgSize) ⟨[], [], 0, 0⟩
  if st.current_package.isEmpty then st.packages
  else (_append_and_reset (st.package_index, st.current_package) st.packages).1

/-- Sum of the `_size` fields of a package's members. -/
def sumSizes (files : List File) : Nat :=
  (files.map File._size).sum

/-- A well-formed package: its member sizes sum to at most the maximum, or it is
a singleton whose sole member exceeds the maximum. -/
def PkgOk (maxPkgSize : Nat) (p : Nat × List File) : Prop :=
  sumSizes p.2 ≤ maxPkgSize ∨ ∃ f, p.2 = [f] ∧ f._size > maxPkgSize

/-- Loop invariant of `distribute_files`: every emitted package is well formed,
`current_size` tracks the accumulator's size sum, and it never exceeds the maximum. -/
def DistInv (maxPkgSize : Nat) (st : DistState) : Prop :=
  (∀ p ∈ st.packages, PkgOk maxPkgSize p) ∧
    st.current_size = sumSizes st.current_package ∧
    st.current_size ≤ maxPkgSize

/-! ## POSIX path helpers (`os.path`, `pathlib`) used by the source -/

/-- Python `s.startswith(p)`. -/
def str_startswith (s p : String) : Bool :=
  p.toList.isPrefixOf s.toList

/-- Python `s.endswith(p)`. -/
def str_endswith (s p : String) : Bool :=
  p.toList.reverse.isPrefixOf s.toList.reverse

/-- Index of the last occurrence of `c` in `cs`, if any (Python `str.rfind`). -/
def lastIdxOf (c : Char) : List Char → Option Nat
  | [] => none
  | a :: rest =>
    match lastIdxOf c rest with
    | some i => some (i + 1)
    | none => if a = c then some 0 else none

/-- `os.path.basename(p)` on POSIX: the part after the last slash. -/
def os_path_basename (p : String) : String :=
  let cs := p.toList
  match lastIdxOf '/' cs with
  | some i => String.mk (cs.drop (i + 1))
  | none => p

/-- `os.path.dirname(p)` on POSIX: `head = p[:rfind(sep)+1]`, and if `head` is
neither empty nor all slashes the trailing slashes are stripped. -/
def os_path_dirname (p : String) : String :=
  let cs := p.toList
  let i := match lastIdxOf '/' cs with
    | some j => j + 1
    | none => 0
  let head := cs.take i
  if head.isEmpty || head.all (· = '/') then String.mk head
  else String.mk ((head.reverse.dropWhile (· = '/')).reverse)

/-- Two-argument `os.path.join(a, b)` on POSIX: `b` wins when absolute, otherwise
the parts are glued with a single slash unless `a` is empty or already ends in one. -/
def os_path_join (a b : String) : String :=
  if str_startswith b "/" then b
  else if a = "" || str_endswith a "/" then a ++ b
  else a ++ "/" ++ b

/-- `pathlib` suffix of a final path component `name`: the part from the last dot
`i`, provided `0 < i < len(name) - 1`; otherwise empty. -/
def pathNameSuffixStart (name : List Char) : Option Nat :=
  match lastIdxOf '.' name with
  | some i => if 0 < i ∧ i < name.length - 1 then some i else none
  | none => none

/-- `_tab_extension(path)` of nativeupload.py: `str(Path(path).with_suffix(".tab"))`,
i.e. the suffix of the final component is replaced by `.tab` (appended when the
component has no suffix).  Assumes an already-normalized relative path, which is
what `os.path.join(directory_label, file_name)` produces here. -/
def _tab_extension (path : String) : String :=
  let cs := path.toList
  let nameStart := match lastIdxOf '/' cs with
    | some j => j + 1
    | none => 0
  let name := cs.drop nameStart
  let stem := match pathNameSuffixStart name with
    | some i => name.take i
    | none => name
  String.mk (cs.take nameStart ++ stem) ++ ".tab"

/-! ## Direct-upload protocol driver (src/dvuploader/directupload.py) -/

/-- The `while chunk:` loop of `_chunked_upload` after the first read: each
iteration reads `chunk_size` bytes and breaks on an empty read.  `read(0)`
returns an empty buffer, so `chunk_size = 0` ends the loop at once. -/
def readLoopChunks : Nat → List Nat → List (List Nat)
  | _, [] => []
  | 0, _ :: _ => []
  | k + 1, a :: rest =>
    ((a :: rest).take (k + 1)) :: readLoopChunks (k + 1) ((a :: rest).drop (k + 1))
termination_by _ l => l.length
decreasing_by simp; omega

/-- The chunks `_chunked_upload` PUTs for a file with byte contents `content`:
the first read is uploaded unconditionally (even when empty), then the
`while chunk:` loop uploads every further non-empty read. -/
def chunkedUploadParts (chunk_size : Nat) (content : List Nat) : List (List Nat) :=
  let chunk := content.take chunk_size
  if chunk.isEmpty then [chunk]
  else chunk :: readLoopChunks chunk_size (content.drop chunk_size)

/-- `_chunked_upload` proper: one `next(urls)` per uploaded chunk, one ETag per
PUT (`etagOf` abstracts the object store's response header).  When the ticket's
URL iterator runs short, `next` raises `StopIteration`, embedded as `none`. -/
def _chunked_upload (etagOf : String → List Nat → String) (chunk_size : Nat)
    (content : List Nat) (urls : List String) : Option (List String) :=
  let parts := chunkedUploadParts chunk_size content
  if parts.length ≤ urls.length then
    some (List.zipWith etagOf urls parts)
  else none

/-- Body of `_complete_upload`:
`{str(index + 1): e_tag for index, e_tag in enumerate(e_tags)}`, a JSON object
kept in insertion order. -/
def completePayload (e_tags : List String) : List (String × String) :=
  e_tags.enum.map (fun p => (toString (p.1 + 1), p.2))

/-- Errors a per-descriptor direct-upload task can raise (ticket request failure,
single-part PUT failure, multipart part failure re-raised after the abort). -/
inductive UploadError
  | ticketRequestFailed
  | singlepartPutFailed
  | multipartPartFailed
  | retryExhausted
deriving DecidableEq

/-- `asyncio.gather(*tasks)` without `return_exceptions=True`, as used in
`direct_upload` and `native_upload`: the first raised exception propagates to
the awaiter and no aggregated result list is produced. -/
def asyncio_gather {ε α : Type} : List (Except ε α) → Except ε (List α)
  | [] => .ok []
  | .error e :: _ => .error e
  | .ok a :: rest => (asyncio_gather rest).map (a :: ·)

/-- `upload_results = await asyncio.gather(*tasks)` of `direct_upload`: each
per-descriptor task either raises an `UploadError` or returns `(status, file)`. -/
def direct_upload_results (outcomes : List (Except UploadError (Bool × File))) :
    Except UploadError (List (Bool × File)) :=
  asyncio_gather outcomes

/-- Values that can appear in a registration record produced by `model_dump`. -/
inductive JVal
  | str (s : String)
  | bool (b : Bool)
  | strList (l : List String)
  | chk (c : Checksum)
  | fid (v : FileId)
deriving DecidableEq

/-- `file.model_dump(by_alias=True, exclude=exclude, exclude_none=True)` as
called by `_prepare_registration`: fields in pydantic declaration order, wire
aliases applied, `filepath`/`handler`/`checksum_type` excluded by their `Field`
definitions, `to_replace` always in the `exclude` set, `file_id` additionally
excluded unless `use_replace`, and every `None` field dropped. -/
def model_dump_registration (file : File) (use_replace : Bool) : List (String × JVal) :=
  [("description", JVal.str file.description),
   ("directoryLabel", JVal.str file.directory_label),
   ("mimeType", JVal.str file.mimeType)]
  ++ (match file.categories with
      | some cs => [("categories", JVal.strList cs)]
      | none => [])
  ++ [("restrict", JVal.bool file.restrict)]
  ++ (match file.storageIdentifier with
      | some v => [("storageIdentifier", JVal.str v)]
      | none => [])
  ++ (match file.file_name with
      | some v => [("fileName", JVal.str v)]
      | none => [])
  ++ (match file.checksum with
      | some c => [("checksum", JVal.chk c)]
      | none => [])
  ++ (if use_replace then
        match file.file_id with
        | some v => [("fileToReplaceId", JVal.fid v)]
        | none => []
      else [])
  ++ [("tabIngest", JVal.bool file.tab_ingest)]

/-- `_prepare_registration(files, use_replace)` of directupload.py: dump every
file whose `to_replace` flag equals `use_replace`. -/
def _prepare_registration (files : List File) (use_replace : Bool) :
    List (List (String × JVal)) :=
  (files.filter (fun f => f.to_replace == use_replace)).map
    (fun f => model_dump_registration f use_replace)

/-! ## Native-upload protocol driver (src/dvuploader/nativeupload.py) -/

/-- `ZIP_LIMIT_MESSAGE` of nativeupload.py. -/
def ZIP_LIMIT_MESSAGE : String := "The number of files in the zip archive is over the limit"

/-- What one `session.post` inside `_single_native_upload` produces: either an
httpx transport-level exception, or a response with a status code and a JSON
`message` field. -/
inductive PostOutcome
  | transportError
  | response (status_code : Nat) (message : String)
deriving DecidableEq

/-- How one attempt of `_single_native_upload` ends, as seen by tenacity. -/
inductive AttemptResult
  | success
  | softFailure
  | zipLimitValueError
  | httpStatusError (status_code : Nat)
  | transportRaised
deriving DecidableEq

/-- One attempt of `_single_native_upload`: a transport exception propagates as
is; HTTP 400 whose `message` starts with `ZIP_LIMIT_MESSAGE` raises `ValueError`;
`response.raise_for_status()` raises `httpx.HTTPStatusError` for every non-2xx
status; 200 returns success; a 2xx status other than 200 returns
`(False, {"message": ...})` without raising. -/
def _single_native_upload_attempt : PostOutcome → AttemptResult
  | .transportError => .transportRaised
  | .response status_code message =>
    if status_code = 400 ∧ str_startswith message ZIP_LIMIT_MESSAGE then .zipLimitValueError
    else if ¬ (200 ≤ status_code ∧ status_code < 300) then .httpStatusError status_code
    else if status_code = 200 then .success
    else .softFailure

/-- The tenacity decorator on `_single_native_upload` uses
`retry=tenacity.retry_if_exception_type((httpx.HTTPStatusError,))`: an attempt
is retried exactly when it raised `httpx.HTTPStatusError`. -/
def tenacity_retries : AttemptResult → Bool
  | .httpStatusError _ => true
  | _ => false

/-- `_is_zip(file_name)` of nativeupload.py. -/
def _is_zip (file_name : String) : Bool :=
  str_endswith file_name ".zip"

/-- Outcome of the per-file body of the `for file in files` loop in
`_update_metadata`: post a metadata update for a file id, skip silently (the
zip-was-unpacked `continue`), or log and skip on `KeyError`. -/
inductive MetaAction
  | update (file_id : Nat)
  | skipUnpackedZip
  | skipNotFound
deriving DecidableEq

/-- `dv_path = os.path.join(file.directory_label, file.file_name)` computed at the
top of the `_update_metadata` loop body.  `file_name` is always set at this stage
(`extract_file_name` ran on every descriptor), hence the `getD`. -/
def dv_path (file : File) : String :=
  os_path_join file.directory_label (file.file_name.getD "")

/-- The `elif` guard of the `_update_metadata` loop:
`file.file_name and _is_zip(file.file_name) and not file._is_inside_zip and not
file._enforce_metadata_update` (Python truthiness: `None` and `""` are falsy). -/
def unpacked_zip_skip (file : File) : Bool :=
  (match file.file_name with
   | none => false
   | some n => if n = "" then false else _is_zip n)
  && !file._is_inside_zip && !file._enforce_metadata_update

/-- Per-file body of `_update_metadata`: the `.tab` variant of `dv_path` is
consulted against `file_mapping` first, then the unpacked-zip `continue`, then
the plain `dv_path` (whose `KeyError` is the logged skip). -/
def _update_metadata_action (file_mapping : List (String × Nat)) (file : File) :
    MetaAction :=
  match file_mapping.lookup (_tab_extension (dv_path file)) with
  | some fid => .update fid
  | none =>
    if unpacked_zip_skip file then
      .skipUnpackedZip
    else
      match file_mapping.lookup (dv_path file) with
      | some fid => .update fid
      | none => .skipNotFound

/-! ## Orchestrator (src/dvuploader/dvuploader.py) -/

/-- `DVUploader._has_direct_upload`: probe `GET /uploadurls?size=1024` and report
unsupported exactly on status 404, supported otherwise. -/
def _has_direct_upload (status_code : Nat) : Bool :=
  if status_code = 404 then false else true

/-- The dispatch condition in `DVUploader.upload`:
`if not has_direct_upload or force_native: native_upload(...) else: direct_upload(...)`. -/
def uses_native_driver (has_direct_upload force_native : Bool) : Bool :=
  !has_direct_upload || force_native

/-- The HTTP round trips `DVUploader.upload` performs, at driver granularity. -/
inductive HttpEvent
  | datasetInventoryFetch
  | capabilityProbe
  | nativeDriverTraffic
  | directDriverTraffic
deriving DecidableEq

/-- The parameters `retrieve_dataset_files` declares in utils.py:
`dataverse_url`, `persistent_id`, `api_token` — and nothing else (no `proxy`,
no `**kwargs`). -/
def retrieve_dataset_files_params : List String :=
  ["dataverse_url", "persistent_id", "api_token"]

/-- The keyword arguments `_check_duplicates` passes in its
`retrieve_dataset_files(...)` call in dvuploader.py: the three declared
parameters plus `proxy`. -/
def _check_duplicates_call_kwargs : List String :=
  ["dataverse_url", "persistent_id", "api_token", "proxy"]

/-- Python keyword-argument binding: a call binds only when every keyword names
a declared parameter; otherwise Python raises `TypeError` (unexpected keyword
argument) before the function body runs. -/
def python_kwargs_bind (params kwargs : List String) : Bool :=
  kwargs.all (fun k => params.contains k)

/-- HTTP events of `DVUploader.upload` in program order, together with its
termination outcome.  `_validate_files` does no HTTP.  `_check_duplicates`
calls `retrieve_dataset_files(..., proxy=proxy)`; `retrieve_dataset_files`
declares no `proxy` parameter, so the call raises `TypeError` at argument
binding, before the function body — and its `httpx.get` inventory fetch — runs.
Were the binding to succeed, the body would perform the inventory fetch; then
`if not self.files:` returns early, and otherwise the capability probe runs and
one driver is dispatched.  `files` is the uploader's file list after
`_check_duplicates` (which never grows it, so it is `[]` for an empty input);
`probe_status` is the probe's response status. -/
def upload_run (files : List File) (probe_status : Nat) (force_native : Bool) :
    List HttpEvent × Except String Unit :=
  if python_kwargs_bind retrieve_dataset_files_params _check_duplicates_call_kwargs then
    if files.isEmpty then
      ([.datasetInventoryFetch], Except.ok ())
    else if uses_native_driver (_has_direct_upload probe_status) force_native then
      ([.datasetInventoryFetch, .capabilityProbe, .nativeDriverTraffic], Except.ok ())
    else
      ([.datasetInventoryFetch, .capabilityProbe, .directDriverTraffic], Except.ok ())
  else
    ([], Except.error "TypeError: unexpected keyword argument proxy")

/-! ## File.extract_file_name (src/dvuploader/file.py) -/

/-- What the filesystem holds at a path, for `File._validate_filepath`. -/
inductive FsEntry
  | missing
  | directory
  | regular (size : Nat)
deriving DecidableEq

/-- `File.extract_file_name`: with no handler, validate the filepath (raising
`FileNotFoundError` / `IsADirectoryError`) and take the size from `os.path.getsize`;
with a handler, set `_size = len(handler.read())`, overwrite `directory_label`
with `os.path.dirname(filepath)` and `seek(0)` the handler.  Either way,
default `file_name` to `os.path.basename(filepath)` and install a fresh
checksum for `checksum_type`. -/
def extract_file_name (fs : String → FsEntry) (file : File) : Except String File :=
  match file.handler with
  | none =>
    match fs file.filepath with
    | .missing => .error "FileNotFoundError"
    | .directory => .error "IsADirectoryError"
    | .regular size =>
      let f1 := { file with _size := size }
      let f2 := if f1.file_name.isNone then
          { f1 with file_name := some (os_path_basename f1.filepath) }
        else f1
      .ok { f2 with checksum := some (Checksum.from_algo f2.checksum_type.algoName) }
  | some h =>
    let (data, h1) := h.read
    let f1 := { file with
        _size := data.len,
        directory_label := os_path_dirname file.filepath,
        handler := some h1.seek0 }
    let f2 := if f1.file_name.isNone then
        { f1 with file_name := some (os_path_basename f1.filepath) }
      else f1
    .ok { f2 with checksum := some (Checksum.from_algo f2.checksum_type.algoName) }

/-! ## Theorems -/

/-- `handler.seek(0)` leaves the stream position at the start. -/
theorem Handler.pos_seek0 (h : Handler) : h.seek0.pos = 0 := by
  cases h <;> rfl

/-- Claim C1 (counterexample): in a two-descriptor batch whose first task raises a
ticket-request failure, `asyncio.gather` (no `return_exceptions`) propagates the
exception: the batch result is the error and no aggregated result list exists, so
the error is not captured in the batch result. -/
theorem C1_counterexample :
    direct_upload_results [Except.error UploadError.ticketRequestFailed,
        Except.ok (true, ({ filepath := "b.txt" } : File))] =
      Except.error UploadError.ticketRequestFailed ∧
    ¬ ∃ results, direct_upload_results [Except.error UploadError.ticketRequestFailed,
        Except.ok (true, ({ filepath := "b.txt" } : File))] = Except.ok results := by
  refine ⟨rfl, ?_⟩
  rintro ⟨results, hc⟩
  simp [direct_upload_results, asyncio_gather] at hc

/-- Claim C1 (amended): an error raised while uploading one descriptor propagates
out of `asyncio.gather` and aborts the batch — some raised error becomes the
batch outcome and no aggregated per-descriptor result list is surfaced; sibling
outcomes are only reported when no task raises. -/
theorem C1_gather_propagates (outcomes : List (Except UploadError (Bool × File)))
    (e : UploadError) (h : Except.error e ∈ outcomes) :
    (∃ e2, direct_upload_results outcomes = Except.error e2) ∧
      ∀ results, direct_upload_results outcomes ≠ Except.ok results := by
  induction outcomes with
  | nil => cases h
  | cons x rest ih =>
    cases x with
    | error e0 =>
      refine ⟨⟨e0, rfl⟩, ?_⟩
      intro results hc
      simp [direct_upload_results, asyncio_gather] at hc
    | ok a =>
      have hmem : Except.error e ∈ rest := by
        rcases List.mem_cons.mp h with h0 | h0
        · cases h0
        · exact h0
      obtain ⟨⟨e2, he2⟩, _⟩ := ih hmem
      have hstep : direct_upload_results (Except.ok a :: rest) =
          (direct_upload_results rest).map (a :: ·) := rfl
      refine ⟨⟨e2, ?_⟩, ?_⟩
      · rw [hstep, he2]; rfl
      · intro results hc
        rw [hstep, he2] at hc
        simp [Except.map] at hc

/-- Claim C1 (witness). -/
theorem C1_witness :
    (Except.error UploadError.singlepartPutFailed ∈
        ([Except.ok (true, ({ filepath := "a.txt" } : File)),
          Except.error UploadError.singlepartPutFailed] :
          List (Except UploadError (Bool × File)))) ∧
      ((∃ e2, direct_upload_results
          [Except.ok (true, ({ filepath := "a.txt" } : File)),
           Except.error UploadError.singlepartPutFailed] = Except.error e2) ∧
        ∀ results, direct_upload_results
          [Except.ok (true, ({ filepath := "a.txt" } : File)),
           Except.error UploadError.singlepartPutFailed] ≠ Except.ok results) :=
  ⟨by simp, C1_gather_propagates _ UploadError.singlepartPutFailed (by simp)⟩

/-- Claim C2 (counterexample): a transport error is not retried (tenacity's
`retry_if_exception_type((httpx.HTTPStatusError,))` does not match it), and an
HTTP 404 is retried although it is neither a transport error, nor ≥ 500, nor 429
— both directions of the claimed "exactly when" fail. -/
theorem C2_counterexample :
    tenacity_retries (_single_native_upload_attempt PostOutcome.transportError) = false ∧
      tenacity_retries
        (_single_native_upload_attempt (PostOutcome.response 404 "Not Found")) = true ∧
      ¬ (500 ≤ 404 ∨ 404 = 429) := by decide

/-- Claim C2 (amended): a failed native attempt is retried exactly when it raised
`httpx.HTTPStatusError`, i.e. the response status is outside 2xx and it is not an
HTTP 400 whose message starts with `ZIP_LIMIT_MESSAGE` ("The number of files in
the zip archive is over the limit"); transport errors are never retried; the
zip-limit 400 raises a terminal `ValueError` and is never retried. -/
theorem C2_retry_classification :
    (∀ (status_code : Nat) (message : String),
        tenacity_retries
            (_single_native_upload_attempt (PostOutcome.response status_code message)) = true ↔
          ¬ (200 ≤ status_code ∧ status_code < 300) ∧
            ¬ (status_code = 400 ∧ str_startswith message ZIP_LIMIT_MESSAGE)) ∧
      tenacity_retries (_single_native_upload_attempt PostOutcome.transportError) = false ∧
      (∀ message : String, str_startswith message ZIP_LIMIT_MESSAGE = true →
        _single_native_upload_attempt (PostOutcome.response 400 message) =
            AttemptResult.zipLimitValueError ∧
          tenacity_retries AttemptResult.zipLimitValueError = false) := by
  refine ⟨?_, rfl, ?_⟩
  · intro status_code message
    simp only [_single_native_upload_attempt]
    by_cases h1 : status_code = 400 ∧ str_startswith message ZIP_LIMIT_MESSAGE
    · rw [if_pos h1]
      simp [tenacity_retries, h1.1, h1.2]
    · rw [if_neg h1]
      by_cases h2 : 200 ≤ status_code ∧ status_code < 300
      · rw [if_neg (by simpa using h2)]
        by_cases h3 : status_code = 200 <;>
          simp [h3, tenacity_retries, h1, h2]
      · rw [if_pos (by simpa using h2)]
        simp [tenacity_retries, h1, h2]
  · intro message hmsg
    refine ⟨?_, rfl⟩
    simp [_single_native_upload_attempt, hmsg]

/-- Claim C2 (witness). -/
theorem C2_witness :
    str_startswith "The number of files in the zip archive is over the limit (50 files)."
        ZIP_LIMIT_MESSAGE = true ∧
      (_single_native_upload_attempt (PostOutcome.response 400
          "The number of files in the zip archive is over the limit (50 files).") =
            AttemptResult.zipLimitValueError ∧
        tenacity_retries AttemptResult.zipLimitValueError = false) :=
  ⟨by decide, C2_retry_classification.2.2 _ (by decide)⟩

/-- Claim C3 (counterexample): with a dataset mapping holding both `a.csv` (id 2)
and `a.tab` (id 1), the loop body of `_update_metadata` resolves a descriptor
whose path is `a.csv` to id 1 — the `.tab` variant is consulted before the plain
path, not after it, although the plain path is present in the mapping. -/
theorem C3_counterexample :
    _update_metadata_action [("a.tab", 1), ("a.csv", 2)]
        { filepath := "a.csv", file_name := some "a.csv" } = MetaAction.update 1 ∧
      List.lookup (dv_path { filepath := "a.csv", file_name := some "a.csv" })
        [("a.tab", 1), ("a.csv", 2)] = some 2 ∧
      MetaAction.update 1 ≠ MetaAction.update 2 := by decide

/-- Claim C3 (amended): for every descriptor, the `.tab`-suffixed variant of
join(directory_label, display_name) (extension replaced by `.tab`) is looked up
first; only if that lookup misses (and the descriptor is not an unexpanded zip)
is the plain path tried; and only if both miss is the descriptor logged and
skipped. -/
theorem C3_lookup_order (file_mapping : List (String × Nat)) (file : File) (fid : Nat) :
    (_update_metadata_action file_mapping file = MetaAction.update fid ↔
        List.lookup (_tab_extension (dv_path file)) file_mapping = some fid ∨
          (List.lookup (_tab_extension (dv_path file)) file_mapping = none ∧
            unpacked_zip_skip file = false ∧
            List.lookup (dv_path file) file_mapping = some fid)) ∧
      (_update_metadata_action file_mapping file = MetaAction.skipNotFound ↔
        List.lookup (_tab_extension (dv_path file)) file_mapping = none ∧
          unpacked_zip_skip file = false ∧
          List.lookup (dv_path file) file_mapping = none) := by
  unfold _update_metadata_action
  cases htab : List.lookup (_tab_extension (dv_path file)) file_mapping with
  | some f0 => simp
  | none =>
    cases hzip : unpacked_zip_skip file with
    | true => simp [hzip]
    | false =>
      cases hplain : List.lookup (dv_path file) file_mapping with
      | some f1 => simp [hzip, hplain]
      | none => simp [hzip, hplain]

/-- Claim C4 (counterexample): the capability probe reports direct upload as
supported for HTTP 500, which is not a 2xx status — "supported exactly when 2xx"
fails (only 404 yields unsupported). -/
theorem C4_counterexample :
    _has_direct_upload 500 = true ∧ ¬ (200 ≤ 500 ∧ 500 < 300) := by decide

/-- Claim C4 (amended): the probe reports direct upload as not supported exactly
when the response status is 404; every other status (2xx or not) is reported as
supported; for a 404 probe the orchestrator dispatches the native driver. -/
theorem C4_probe_classification (status_code : Nat) (force_native : Bool) :
    (_has_direct_upload status_code = false ↔ status_code = 404) ∧
      uses_native_driver (_has_direct_upload 404) force_native = true := by
  constructor
  · by_cases h : status_code = 404 <;> simp [_has_direct_upload, h]
  · cases force_native <;> rfl

/-- Claim C9 (counterexample): `upload` on an empty file list does not complete:
`_check_duplicates` passes a `proxy=` keyword to `retrieve_dataset_files`, which
declares no such parameter, so Python raises `TypeError` at argument binding —
before any HTTP request — and `upload` raises instead of returning. -/
theorem C9_counterexample :
    (upload_run [] 200 false).1 = [] ∧
      (upload_run [] 200 false).2 =
        Except.error "TypeError: unexpected keyword argument proxy" ∧
      (Except.error "TypeError: unexpected keyword argument proxy" :
          Except String Unit) ≠ Except.ok () := by
  refine ⟨rfl, rfl, ?_⟩
  intro hc
  cases hc

/-- Claim C9 (amended): for an empty list of files — indeed for any input —
`upload` raises `TypeError` at the duplicate-check call (`retrieve_dataset_files`
is invoked with a `proxy=` keyword it does not declare) before any HTTP request:
no inventory fetch, no capability probe, no driver traffic, and no completion. -/
theorem C9_upload_raises (files : List File) (probe_status : Nat) (force_native : Bool) :
    upload_run files probe_status force_native =
      ([], Except.error "TypeError: unexpected keyword argument proxy") := rfl

/-- Claim C10 (counterexample): for a `StringIO` handler holding the one-character
text "é", `extract_file_name` sets `_size = len(handler.read()) = 1`, while the
byte length of the handler's contents is 2 (UTF-8) — the size is the character
count, not the byte length. -/
theorem C10_counterexample :
    (extract_file_name (fun _ => FsEntry.missing)
        { filepath := "x", handler := some (Handler.stringBuf "é" 0) }).toOption.map
        File._size = some 1 ∧
      (Handler.stringBuf "é" 0).contentsByteLength = 2 ∧ (1 : Nat) ≠ 2 := by decide

/-- Claim C10 (amended): with an in-memory handler, `extract_file_name` overwrites
any caller-supplied `directory_label` with `dirname(filepath)`, sets `_size` to
`len(handler.read())` — the byte count for a `BytesIO` but the character count
for a `StringIO` — and leaves the handler seeked to position 0; when no handler
is given, `directory_label` is left unchanged. -/
theorem C10_extract_file_name (fs : String → FsEntry) (file : File) (h : Handler)
    (hh : file.handler = some h) :
    (∃ r, extract_file_name fs file = Except.ok r ∧
        r.directory_label = os_path_dirname file.filepath ∧
        r._size = (h.read).1.len ∧
        r.handler = some ((h.read).2.seek0) ∧
        Handler.pos ((h.read).2.seek0) = 0) ∧
      (∀ file2 : File, file2.handler = none →
        ∀ r, extract_file_name fs file2 = Except.ok r →
          r.directory_label = file2.directory_label) := by
  constructor
  · unfold extract_file_name
    rw [hh]
    cases h <;>
      by_cases hn : file.file_name.isNone <;>
        exact ⟨_, rfl, by simp [hn, Handler.read],
          by simp [hn, Handler.read, HandlerData.len],
          by simp [hn, Handler.read, Handler.seek0], Handler.pos_seek0 _⟩
  · intro file2 h2 r hr
    unfold extract_file_name at hr
    rw [h2] at hr
    cases hfs : fs file2.filepath <;> rw [hfs] at hr
    · cases hr
    · cases hr
    · by_cases hn : file2.file_name.isNone <;>
        · simp only [hn] at hr
          cases hr
          simp [hn]

/-- Claim C10 (witness). -/
theorem C10_witness :
    (({ filepath := "d/y.bin", handler := some (Handler.bytesBuf [7, 8] 0),
        directory_label := "olddir" } : File).handler =
      some (Handler.bytesBuf [7, 8] 0)) ∧
      ((∃ r, extract_file_name (fun _ => FsEntry.missing)
          { filepath := "d/y.bin", handler := some (Handler.bytesBuf [7, 8] 0),
            directory_label := "olddir" } = Except.ok r ∧
          r.directory_label = os_path_dirname "d/y.bin" ∧
          r._size = ((Handler.bytesBuf [7, 8] 0).read).1.len ∧
          r.handler = some (((Handler.bytesBuf [7, 8] 0).read).2.seek0) ∧
          Handler.pos (((Handler.bytesBuf [7, 8] 0).read).2.seek0) = 0) ∧
        (∀ file2 : File, file2.handler = none →
          ∀ r, extract_file_name (fun _ => FsEntry.missing) file2 = Except.ok r →
            r.directory_label = file2.directory_label)) :=
  ⟨rfl, C10_extract_file_name (fun _ => FsEntry.missing) _ (Handler.bytesBuf [7, 8] 0) rfl⟩

/-- `sumSizes` over an appended singleton. -/
theorem sumSizes_append (l : List File) (f : File) :
    sumSizes (l ++ [f]) = sumSizes l + f._size := by
  simp [sumSizes]

/-- One `distribute_files` loop iteration appends exactly the processed file to
the concatenation of emitted package members and the accumulator. -/
theorem distributeStep_concat (maxPkgSize : Nat) (st : DistState) (file : File) :
    ((distributeStep maxPkgSize st file).packages.map Prod.snd).flatten ++
        (distributeStep maxPkgSize st file).current_package =
      ((st.packages.map Prod.snd).flatten ++ st.current_package) ++ [file] := by
  simp only [distributeStep, _append_and_reset]
  split_ifs with h1 h2 h3 h4 <;>
    simp_all [List.isEmpty_iff, List.append_assoc]

/-- One `distribute_files` loop iteration preserves the loop invariant. -/
theorem distributeStep_inv (maxPkgSize : Nat) (st : DistState) (file : File)
    (h : DistInv maxPkgSize st) : DistInv maxPkgSize (distributeStep maxPkgSize st file) := by
  unfold DistInv at h ⊢
  obtain ⟨hpkgs, hsz, hle⟩ := h
  simp only [distributeStep, _append_and_reset]
  split_ifs with h1 h2 h3 h4
  · -- oversized file, empty accumulator
    refine ⟨?_, rfl, Nat.zero_le _⟩
    intro p hp
    rcases List.mem_append.mp hp with hmem | hmem
    · exact hpkgs p hmem
    · have hp1 : p = (st.package_index, [file]) := List.mem_singleton.mp hmem
      subst hp1
      exact Or.inr ⟨file, rfl, h1⟩
  · -- oversized file, non-empty accumulator flushed first
    refine ⟨?_, rfl, Nat.zero_le _⟩
    intro p hp
    rcases List.mem_append.mp hp with hmem | hmem
    · rcases List.mem_append.mp hmem with hmem2 | hmem2
      · exact hpkgs p hmem2
      · have hp1 : p = (st.package_index, st.current_package) := List.mem_singleton.mp hmem2
        subst hp1
        exact Or.inl (hsz ▸ hle)
    · have hp1 : p = (st.package_index + 1, [file]) := List.mem_singleton.mp hmem
      subst hp1
      exact Or.inr ⟨file, rfl, h1⟩
  · -- fits alone, would overflow, empty accumulator: append to it
    have hcur : st.current_package = [] := List.isEmpty_iff.mp h4
    refine ⟨hpkgs, ?_, ?_⟩
    · rw [hsz, hcur, sumSizes_append]
    · rw [hsz, hcur]
      simpa [sumSizes] using Nat.not_lt.mp h1
  · -- fits alone, would overflow, non-empty accumulator flushed first
    refine ⟨?_, ?_, ?_⟩
    · intro p hp
      rcases List.mem_append.mp hp with hmem | hmem
      · exact hpkgs p hmem
      · have hp1 : p = (st.package_index, st.current_package) := List.mem_singleton.mp hmem
        subst hp1
        exact Or.inl (hsz ▸ hle)
    · simp [sumSizes]
    · simpa [sumSizes] using Nat.not_lt.mp h1
  · -- fits into the current package
    refine ⟨hpkgs, ?_, Nat.not_lt.mp h3⟩
    rw [hsz, sumSizes_append]

/-- The concatenation property transported along the whole fold. -/
theorem foldl_distributeStep_concat (maxPkgSize : Nat) (dv_files : List File) :
    ∀ st : DistState,
      (((dv_files.foldl (distributeStep maxPkgSize) st).packages.map Prod.snd).flatten ++
          (dv_files.foldl (distributeStep maxPkgSize) st).current_package) =
        ((st.packages.map Prod.snd).flatten ++ st.current_package) ++ dv_files := by
  induction dv_files with
  | nil => intro st; simp
  | cons f rest ih =>
    intro st
    rw [List.foldl_cons, ih (distributeStep maxPkgSize st f), distributeStep_concat]
    simp [List.append_assoc]

/-- The loop invariant transported along the whole fold. -/
theorem foldl_distributeStep_inv (maxPkgSize : Nat) (dv_files : List File) :
    ∀ st : DistState, DistInv maxPkgSize st →
      DistInv maxPkgSize (dv_files.foldl (distributeStep maxPkgSize) st) := by
  induction dv_files with
  | nil => intro st h; exact h
  | cons f rest ih =>
    intro st h
    exact ih _ (distributeStep_inv maxPkgSize st f h)

/-- Claim C6: every package produced by `distribute_files` has member sizes
summing to at most the maximum package size, except a singleton package whose
sole member's size exceeds the maximum. -/
theorem C6_package_size_bound (maxPkgSize : Nat) (dv_files : List File)
    (p : Nat × List File) (hp : p ∈ distribute_files maxPkgSize dv_files) :
    sumSizes p.2 ≤ maxPkgSize ∨ ∃ f, p.2 = [f] ∧ f._size > maxPkgSize := by
  have hinv := foldl_distributeStep_inv maxPkgSize dv_files ⟨[], [], 0, 0⟩
    (by unfold DistInv; exact ⟨by simp, rfl, Nat.zero_le _⟩)
  unfold DistInv at hinv
  obtain ⟨hpkgs, hsz, hle⟩ := hinv
  unfold distribute_files at hp
  by_cases h2 : (dv_files.foldl (distributeStep maxPkgSize) ⟨[], [], 0, 0⟩).current_package.isEmpty
  · rw [if_pos h2] at hp
    have := hpkgs p hp
    unfold PkgOk at this
    exact this
  · rw [if_neg h2] at hp
    unfold _append_and_reset at hp
    rcases List.mem_append.mp hp with hmem | hmem
    · have := hpkgs p hmem
      unfold PkgOk at this
      exact this
    · have hp1 := List.mem_singleton.mp hmem
      subst hp1
      exact Or.inl (hsz ▸ hle)

/-- Claim C6 (witness). -/
theorem C6_witness :
    ((1, [({ filepath := "c", _size := 20 } : File)]) ∈
        distribute_files 10
          [{ filepath := "a", _size := 4 }, { filepath := "c", _size := 20 }]) ∧
      (sumSizes [({ filepath := "c", _size := 20 } : File)] ≤ 10 ∨
        ∃ f, [({ filepath := "c", _size := 20 } : File)] = [f] ∧ f._size > 10) :=
  ⟨by decide, C6_package_size_bound 10
    [{ filepath := "a", _size := 4 }, { filepath := "c", _size := 20 }]
    (1, [{ filepath := "c", _size := 20 }]) (by decide)⟩

/-- Claim C7: concatenating the member lists of the packages returned by
`distribute_files`, in package order, yields exactly the input list in its
original order. -/
theorem C7_concat_preserves_input (maxPkgSize : Nat) (dv_files : List File) :
    ((distribute_files maxPkgSize dv_files).map Prod.snd).flatten = dv_files := by
  have h := foldl_distributeStep_concat maxPkgSize dv_files ⟨[], [], 0, 0⟩
  simp only [List.map_nil, List.flatten_nil, List.nil_append] at h
  unfold distribute_files
  by_cases h2 : (dv_files.foldl (distributeStep maxPkgSize) ⟨[], [], 0, 0⟩).current_package.isEmpty
  · rw [if_pos h2]
    have hcur := List.isEmpty_iff.mp h2
    rw [hcur, List.append_nil] at h
    exact h
  · rw [if_neg h2]
    unfold _append_and_reset
    simpa [List.map_append, List.flatten_append] using h

/-- No registration record ever contains a `to_replace` key: the field is in the
`exclude` set for both partitions. -/
theorem dump_no_to_replace_key (f : File) (use_replace : Bool) :
    "to_replace" ∉ (model_dump_registration f use_replace).map Prod.fst := by
  unfold model_dump_registration
  cases f.categories <;> cases f.storageIdentifier <;> cases f.file_name <;>
    cases f.checksum <;> cases f.file_id <;> cases use_replace <;> simp

/-- A replace-partition record carries `fileToReplaceId` whenever the file id is
set (`exclude_none=True` would drop a `None` id). -/
theorem dump_replace_has_fileToReplaceId (f : File) (hf : f.file_id.isSome = true) :
    "fileToReplaceId" ∈ (model_dump_registration f true).map Prod.fst := by
  obtain ⟨v, hv⟩ := Option.isSome_iff_exists.mp hf
  unfold model_dump_registration
  rw [hv]
  cases f.categories <;> cases f.storageIdentifier <;> cases f.file_name <;>
    cases f.checksum <;> simp

/-- An add-partition record never carries `fileToReplaceId`: `file_id` is in the
`exclude` set when `use_replace` is false. -/
theorem dump_add_no_fileToReplaceId (f : File) :
    "fileToReplaceId" ∉ (model_dump_registration f false).map Prod.fst := by
  unfold model_dump_registration
  cases f.categories <;> cases f.storageIdentifier <;> cases f.file_name <;>
    cases f.checksum <;> simp

/-- Claim C8: under the data-model invariant `to_replace ⇒ file_id ≠ nil`, every
descriptor lands in the replace payload exactly when `to_replace` is true (and in
the add payload otherwise); every replace record contains the `fileToReplaceId`
key, no add record does, and no record of either payload contains a `to_replace`
key. -/
theorem C8_registration_payloads (files : List File)
    (h : ∀ f ∈ files, f.to_replace = true → f.file_id.isSome = true) :
    (∀ f ∈ files,
        (f.to_replace = true →
          model_dump_registration f true ∈ _prepare_registration files true) ∧
        (f.to_replace = false →
          model_dump_registration f false ∈ _prepare_registration files false)) ∧
      (∀ rec2 ∈ _prepare_registration files true,
        "fileToReplaceId" ∈ rec2.map Prod.fst ∧ "to_replace" ∉ rec2.map Prod.fst) ∧
      (∀ rec2 ∈ _prepare_registration files false,
        "fileToReplaceId" ∉ rec2.map Prod.fst ∧ "to_replace" ∉ rec2.map Prod.fst) := by
  refine ⟨?_, ?_, ?_⟩
  · intro f hf
    constructor <;> intro ht <;>
      · unfold _prepare_registration
        exact List.mem_map_of_mem _ (List.mem_filter.mpr ⟨hf, by simp [ht]⟩)
  · intro rec2 hrec
    unfold _prepare_registration at hrec
    obtain ⟨f, hfmem, rfl⟩ := List.mem_map.mp hrec
    have hfil := List.mem_filter.mp hfmem
    have hrep : f.to_replace = true := by simpa using hfil.2
    exact ⟨dump_replace_has_fileToReplaceId f (h f hfil.1 hrep),
      dump_no_to_replace_key f true⟩
  · intro rec2 hrec
    unfold _prepare_registration at hrec
    obtain ⟨f, _, rfl⟩ := List.mem_map.mp hrec
    exact ⟨dump_add_no_fileToReplaceId f, dump_no_to_replace_key f false⟩

/-- Claim C8 (witness). -/
theorem C8_witness :
    (∀ f ∈ ([{ filepath := "r.txt", to_replace := true, file_id := some (FileId.int 7) },
        { filepath := "n.txt" }] : List File), f.to_replace = true → f.file_id.isSome = true) ∧
      ((∀ f ∈ ([{ filepath := "r.txt", to_replace := true, file_id := some (FileId.int 7) },
          { filepath := "n.txt" }] : List File),
          (f.to_replace = true →
            model_dump_registration f true ∈ _prepare_registration
              [{ filepath := "r.txt", to_replace := true, file_id := some (FileId.int 7) },
               { filepath := "n.txt" }] true) ∧
          (f.to_replace = false →
            model_dump_registration f false ∈ _prepare_registration
              [{ filepath := "r.txt", to_replace := true, file_id := some (FileId.int 7) },
               { filepath := "n.txt" }] false)) ∧
        (∀ rec2 ∈ _prepare_registration
            [{ filepath := "r.txt", to_replace := true, file_id := some (FileId.int 7) },
             { filepath := "n.txt" }] true,
          "fileToReplaceId" ∈ rec2.map Prod.fst ∧ "to_replace" ∉ rec2.map Prod.fst) ∧
        (∀ rec2 ∈ _prepare_registration
            [{ filepath := "r.txt", to_replace := true, file_id := some (FileId.int 7) },
             { filepath := "n.txt" }] false,
          "fileToReplaceId" ∉ rec2.map Prod.fst ∧ "to_replace" ∉ rec2.map Prod.fst)) :=
  ⟨by decide, C8_registration_payloads _ (by decide)⟩

/-- Length of the `while chunk:` loop's chunk list for a positive chunk size:
ceiling division of the remaining byte count. -/
theorem readLoopChunks_length (k : Nat) (l : List Nat) (hl : l ≠ []) :
    (readLoopChunks (k + 1) l).length = (l.length + k) / (k + 1) := by
  match l with
  | a :: rest =>
    rw [readLoopChunks]
    by_cases hd : (a :: rest).drop (k + 1) = []
    · rw [hd]
      have h1 : (a :: rest).length ≤ k + 1 := List.drop_eq_nil_iff.mp hd
      have hL : (a :: rest).length = rest.length + 1 := by simp
      simp only [readLoopChunks, List.length_cons, List.length_nil]
      symm
      apply Nat.div_eq_of_lt_le
      · omega
      · omega
    · have ih := readLoopChunks_length k ((a :: rest).drop (k + 1)) hd
      rw [List.length_cons, ih, List.length_drop]
      have hlen : k + 1 < (a :: rest).length := by
        rcases Nat.lt_or_ge (k + 1) (a :: rest).length with hg | hg
        · exact hg
        · exact absurd (List.drop_eq_nil_iff.mpr hg) hd
      have hsub : (a :: rest).length + k = ((a :: rest).length - (k + 1) + k) + (k + 1) := by
        omega
      rw [hsub, Nat.add_div_right _ (Nat.succ_pos k)]
termination_by l.length
decreasing_by simp [List.length_drop]; omega

/-- For a positive chunk size and non-empty content, the unconditional first PUT
of `_chunked_upload` coincides with the first iteration of the while loop. -/
theorem chunkedUploadParts_eq_readLoop (k : Nat) (a : Nat) (rest : List Nat) :
    chunkedUploadParts (k + 1) (a :: rest) = readLoopChunks (k + 1) (a :: rest) := by
  rw [chunkedUploadParts, readLoopChunks]
  rw [if_neg (by simp)]

/-- The number of parts `_chunked_upload` PUTs: `ceil(size / partSize)`, except
that an empty file still PUTs one (empty) part. -/
theorem chunkedUploadParts_length (chunk_size : Nat) (content : List Nat)
    (hp : 1 ≤ chunk_size) :
    (chunkedUploadParts chunk_size content).length =
      max 1 ((content.length + chunk_size - 1) / chunk_size) := by
  obtain ⟨k, rfl⟩ : ∃ k, chunk_size = k + 1 := ⟨chunk_size - 1, by omega⟩
  cases content with
  | nil =>
    have hdiv : k / (k + 1) = 0 := Nat.div_eq_of_lt (by omega)
    simp [chunkedUploadParts, hdiv]
  | cons a rest =>
    rw [chunkedUploadParts_eq_readLoop, readLoopChunks_length k _ (by simp),
      List.length_cons]
    have hge : 1 ≤ (rest.length + 1 + k) / (k + 1) := by
      rw [Nat.one_le_div_iff (Nat.succ_pos k)]
      omega
    have harith : rest.length + 1 + (k + 1) - 1 = rest.length + 1 + k := by omega
    rw [harith, Nat.max_eq_right hge]

/-- `zipWith` only consumes as many left elements as the right list has. -/
theorem zipWith_take_right {α β γ : Type} (f : α → β → γ) :
    ∀ (l1 : List α) (l2 : List β),
      List.zipWith f l1 l2 = List.zipWith f (l1.take l2.length) l2 := by
  intro l1 l2
  induction l2 generalizing l1 with
  | nil => simp
  | cons b bs ih =>
    cases l1 with
    | nil => simp
    | cons a as => simp [ih as]

/-- The Complete body's keys are the strings "1", "2", … in ascending order. -/
theorem completePayload_fst (e_tags : List String) :
    (completePayload e_tags).map Prod.fst =
      (List.range e_tags.length).map (fun i => toString (i + 1)) := by
  unfold completePayload
  rw [List.map_map]
  have hcomp : (Prod.fst ∘ fun p : Nat × String => (toString (p.1 + 1), p.2)) =
      (fun i => toString (i + 1)) ∘ Prod.fst := rfl
  rw [hcomp, ← List.map_map, List.enum_map_fst]

/-- The Complete body's values are the ETags in part-upload order. -/
theorem completePayload_snd (e_tags : List String) :
    (completePayload e_tags).map Prod.snd = e_tags := by
  unfold completePayload
  rw [List.map_map]
  have hcomp : (Prod.snd ∘ fun p : Nat × String => (toString (p.1 + 1), p.2)) =
      @Prod.snd Nat String := rfl
  rw [hcomp, List.enum_map_snd]

/-- Claim C5 (counterexample): for an empty file (size 0) with part size 1024,
`_chunked_upload` still PUTs one (empty) part, consuming one URL and producing
one ETag, whereas `ceil(0 / 1024) = 0` — the claimed count fails at size 0. -/
theorem C5_counterexample :
    (chunkedUploadParts 1024 []).length = 1 ∧
      ((List.length ([] : List Nat)) + 1024 - 1) / 1024 = 0 ∧ (1 : Nat) ≠ 0 := by
  refine ⟨rfl, ?_, by decide⟩
  norm_num

/-- Claim C5 (amended): for part size ≥ 1 and enough part URLs, `_chunked_upload`
succeeds; the ETags sent to Complete are one per consumed URL in part order, and
their number equals `max 1 (ceil(size / partSize))` — i.e. `ceil(size/partSize)`
for non-empty files, with one extra empty part for a zero-byte file; the Complete
body maps keys "1", "2", … in 1-based ascending order to those ETags in
part-upload order. -/
theorem C5_multipart_complete (etagOf : String → List Nat → String)
    (chunk_size : Nat) (content : List Nat) (urls : List String)
    (hp : 1 ≤ chunk_size)
    (hurls : (chunkedUploadParts chunk_size content).length ≤ urls.length) :
    ∃ e_tags, _chunked_upload etagOf chunk_size content urls = some e_tags ∧
      e_tags.length = (chunkedUploadParts chunk_size content).length ∧
      e_tags = List.zipWith etagOf
        (urls.take (chunkedUploadParts chunk_size content).length)
        (chunkedUploadParts chunk_size content) ∧
      (chunkedUploadParts chunk_size content).length =
        max 1 ((content.length + chunk_size - 1) / chunk_size) ∧
      (completePayload e_tags).map Prod.fst =
        (List.range e_tags.length).map (fun i => toString (i + 1)) ∧
      (completePayload e_tags).map Prod.snd = e_tags := by
  refine ⟨List.zipWith etagOf urls (chunkedUploadParts chunk_size content), ?_, ?_, ?_, ?_, ?_, ?_⟩
  · unfold _chunked_upload
    rw [if_pos hurls]
  · rw [List.length_zipWith]
    omega
  · exact zipWith_take_right etagOf urls (chunkedUploadParts chunk_size content)
  · exact chunkedUploadParts_length chunk_size content hp
  · exact completePayload_fst _
  · exact completePayload_snd _

/-- Claim C5 (witness). -/
theorem C5_witness :
    ((1 : Nat) ≤ 2 ∧
        (chunkedUploadParts 2 [10, 11, 12]).length ≤ (["u1", "u2"] : List String).length) ∧
      (∃ e_tags, _chunked_upload (fun _ _ => "etag") 2 [10, 11, 12] ["u1", "u2"] =
            some e_tags ∧
          e_tags.length = (chunkedUploadParts 2 [10, 11, 12]).length ∧
          e_tags = List.zipWith (fun _ _ => "etag")
            ((["u1", "u2"] : List String).take (chunkedUploadParts 2 [10, 11, 12]).length)
            (chunkedUploadParts 2 [10, 11, 12]) ∧
          (chunkedUploadParts 2 [10, 11, 12]).length =
            max 1 (((10 :: [11, 12]).length + 2 - 1) / 2) ∧
          (completePayload e_tags).map Prod.fst =
            (List.range e_tags.length).map (fun i => toString (i + 1)) ∧
          (completePayload e_tags).map Prod.snd = e_tags) :=
  ⟨⟨by decide, by
      rw [chunkedUploadParts_length 2 [10, 11, 12] (by decide)]
      norm_num⟩,
    C5_multipart_complete (fun _ _ => "etag") 2 [10, 11, 12] ["u1", "u2"] (by decide)
      (by rw [chunkedUploadParts_length 2 [10, 11, 12] (by decide)]; norm_num)⟩

end Dvuploader
